import Mathlib

/-!
Verification development for the RAG (retrieval-augmented generation)
pipeline of the sales-agent repository.

Shallow embedding of:
  * `tools/document_reader_tool.py` (class `DocumentReaderTool`):
    the extension dispatch of `_run`, and `_read_pdf`, `_read_docx`,
    `_read_txt`;
  * the langchain `RecursiveCharacterTextSplitter` used by
    `tools/rag_manager.py` with `chunk_size=1000, chunk_overlap=150`
    (default separators `"\n\n", "\n", " ", ""`, `keep_separator=True`,
    `strip_whitespace=True`, length function `len`);
  * `tools/rag_manager.py` (`get_rag_tool`): the orchestrator wiring
    reader, splitter, embeddings, MongoDB collection and retriever tool.

Python strings are modelled as `List Char` (`PyStr`).  External effects
(the file system, the PDF/DOCX/TXT readers' underlying libraries, the
embedding model, the MongoDB client) are modelled as oracle fields of
environment structures; a library call that may raise an exception is an
`Except` value.  Python's `str.lower` is modelled on the ASCII range
(the reference extensions compared against are ASCII); `str.strip`
removes exactly the characters of CPython's whitespace table
(`pyIsSpace`).
-/

/-- A Python string, modelled as its list of characters. -/
abbrev PyStr := List Char

/-- Coerce a Lean string literal to the `PyStr` model. -/
def str (s : String) : PyStr := s.data

/-- Python whitespace (CPython's `Py_UNICODE_ISSPACE`, the character
set removed by `str.strip()`): the ASCII controls U+0009–U+000D, the
space U+0020, the separators U+001C–U+001F, NEL U+0085, NBSP U+00A0,
and the Unicode spaces U+1680, U+2000–U+200A, U+2028, U+2029, U+202F,
U+205F and U+3000. -/
def pyIsSpace (c : Char) : Bool :=
  (0x09 ≤ c.toNat && c.toNat ≤ 0x0d) || c.toNat == 0x20 ||
  (0x1c ≤ c.toNat && c.toNat ≤ 0x1f) || c.toNat == 0x85 || c.toNat == 0xa0 ||
  c.toNat == 0x1680 || (0x2000 ≤ c.toNat && c.toNat ≤ 0x200a) ||
  c.toNat == 0x2028 || c.toNat == 0x2029 || c.toNat == 0x202f ||
  c.toNat == 0x205f || c.toNat == 0x3000

/-- `str.strip()`: drop whitespace from both ends. -/
def pyStrip (s : PyStr) : PyStr :=
  ((s.dropWhile pyIsSpace).reverse.dropWhile pyIsSpace).reverse

/-- `text.startswith(pat)` — does `pat` occur at the head of `text`?
(`pat` is the first argument.) -/
def startsWithChars : PyStr → PyStr → Bool
  | [], _ => true
  | _ :: _, [] => false
  | a :: as, b :: bs => a == b && startsWithChars as bs

/-- `re.search` of the literal pattern `pat` in `text`: does `pat`
occur anywhere in `text`? -/
def containsSub (pat : PyStr) : PyStr → Bool
  | [] => startsWithChars pat []
  | c :: rest => startsWithChars pat (c :: rest) || containsSub pat rest

/-- `re.split(lit, text)` for a non-empty literal separator `s0 :: stl`:
the pieces of `text` between occurrences of the separator (occurrences
found left to right, also yielding empty pieces).  The fuel parameter is
initialised to the text length (each step consumes at least one
character, so fuel never runs out; the fuel-exhausted arm only fires on
empty text, where it agrees with the empty-text arm). -/
def splitOnGo (s0 : Char) (stl : PyStr) : Nat → PyStr → PyStr → List PyStr
  | 0, acc, _ => [acc.reverse]
  | _ + 1, acc, [] => [acc.reverse]
  | fuel + 1, acc, c :: rest =>
    if c == s0 && startsWithChars stl rest then
      acc.reverse :: splitOnGo s0 stl fuel [] (rest.drop stl.length)
    else
      splitOnGo s0 stl fuel (c :: acc) rest

/-- `langchain.text_splitter._split_text_with_regex` with
`keep_separator=True`: split on the (escaped, hence literal) separator,
re-attach each separator occurrence to the front of the following piece,
and drop empty pieces.  An empty separator splits into single characters. -/
def splitKeep (sep : PyStr) (text : PyStr) : List PyStr :=
  match sep with
  | [] => (text.map (fun c => [c])).filter (fun s => !s.isEmpty)
  | s0 :: stl =>
    match splitOnGo s0 stl text.length [] text with
    | [] => []
    | p :: ps => (p :: ps.map (fun q => sep ++ q)).filter (fun s => !s.isEmpty)

/-- `TextSplitter._join_docs`: join the accumulated splits with the
separator, strip whitespace, and drop the chunk when it is empty. -/
def joinDocs (sep : PyStr) (docs : List PyStr) : Option PyStr :=
  let text := pyStrip (List.intercalate sep docs)
  if text.isEmpty then none else some text

/-- The inner `while` loop of `TextSplitter._merge_splits`: pop leading
splits from `current_doc` while the running total exceeds the overlap (or
would still overflow the chunk size together with the incoming split of
length `dlen`).  The `[]` case returns unchanged: it is unreachable in
the source because `total = 0` falsifies the loop condition there. -/
def popLoop (cs co sepLen dlen : Int) : List PyStr → Int → List PyStr × Int
  | [], total => ([], total)
  | c :: cur, total =>
    if total > co ∨ (total + dlen + sepLen > cs ∧ total > 0) then
      popLoop cs co sepLen dlen cur
        (total - ((c.length : Int) + (if cur.isEmpty then 0 else sepLen)))
    else
      (c :: cur, total)

/-- The `for d in splits` loop of `TextSplitter._merge_splits`: `docs` is
the accumulated output, `cur` the pending `current_doc`, `total` its
running length (including separators), processed against the remaining
`splits`. -/
def mergeGo (cs co sepLen : Int) (sep : PyStr) :
    List PyStr → List PyStr → Int → List PyStr → List PyStr
  | docs, cur, _total, [] => docs ++ (joinDocs sep cur).toList
  | docs, cur, total, d :: rest =>
    let dlen : Int := d.length
    if total + dlen + (if cur.isEmpty then 0 else sepLen) > cs then
      match cur with
      | [] =>
        -- `current_doc` empty: nothing to emit or pop; just append `d`.
        mergeGo cs co sepLen sep docs [d] (total + dlen) rest
      | c0 :: curTl =>
        let docs2 := docs ++ (joinDocs sep (c0 :: curTl)).toList
        let pt := popLoop cs co sepLen dlen (c0 :: curTl) total
        let cur2 := pt.1 ++ [d]
        let total2 := pt.2 + dlen + (if cur2.length > 1 then sepLen else 0)
        mergeGo cs co sepLen sep docs2 cur2 total2 rest
    else
      let cur2 := cur ++ [d]
      let total2 := total + dlen + (if cur2.length > 1 then sepLen else 0)
      mergeGo cs co sepLen sep docs cur2 total2 rest

/-- `TextSplitter._merge_splits` with chunk size `cs`, overlap `co` and
join separator `sep`. -/
def mergeSplits (cs co : Int) (sep : PyStr) (splits : List PyStr) : List PyStr :=
  mergeGo cs co (sep.length : Int) sep [] [] 0 splits

/-- The separator-selection loop at the head of
`RecursiveCharacterTextSplitter._split_text`: scan the separators in
order; an empty separator is selected with no remaining separators; a
separator occurring in `text` is selected with the rest of the list as
the remaining separators; otherwise the default is the last separator
with no remaining separators. -/
def chooseSepGo (text : PyStr) (lastSep : PyStr) : List PyStr → PyStr × List PyStr
  | [] => (lastSep, [])
  | s :: rest =>
    if s.isEmpty then ([], [])
    else if containsSub s text then (s, rest)
    else chooseSepGo text lastSep rest

/-- Separator selection over the whole separator list. -/
def chooseSep (text : PyStr) (seps : List PyStr) : PyStr × List PyStr :=
  chooseSepGo text (seps.getLastD []) seps

/-- Regrouping loop of `RecursiveCharacterTextSplitter._split_text`:
consecutive good (small) splits are collected into `good` and merged
together; every oversized split contributes its own (possibly recursive)
chunk list, flushing the pending good splits first.  (`_merge_splits` of
an empty list is empty, so the source's `if _good_splits:` guard is
dropped without changing the result.) -/
def regroup (cs co : Int) : List (PyStr ⊕ List PyStr) → List PyStr → List PyStr
  | [], good => mergeSplits cs co [] good
  | Sum.inl s :: rest, good => regroup cs co rest (good ++ [s])
  | Sum.inr chunks :: rest, good =>
    mergeSplits cs co [] good ++ chunks ++ regroup cs co rest []

/-- The body of `RecursiveCharacterTextSplitter._split_text` (with
`keep_separator=True`, so splits are merged with an empty join
separator): choose the active separator, split, keep small splits, and
hand each oversized split to the recursive occurrence `recFn` together
with the remaining separators (when there are any; `recFn = none` marks
exhausted fuel, see `splitTextFuel`). -/
def splitTextBody (cs co : Int) (recFn : Option (List PyStr → PyStr → List PyStr))
    (seps : List PyStr) (text : PyStr) : List PyStr :=
  let sn := chooseSep text seps
  regroup cs co
    ((splitKeep sn.1 text).map (fun s =>
      if (s.length : Int) < cs then Sum.inl s
      else
        match sn.2, recFn with
        | [], _ => Sum.inr [s]
        | _ :: _, none => Sum.inr [s]
        | s1 :: srest, some f => Sum.inr (f (s1 :: srest) s))) []

/-- `RecursiveCharacterTextSplitter._split_text`: the recursion descends
into `(chooseSep text seps).2`, which `chooseSep_length` shows is
strictly shorter than `seps`, so it is driven by a fuel parameter set to
`seps.length` at the top-level call; the fuel-exhausted arm is
unreachable (it would require a remaining-separator list at least as
long as the list it came from). -/
def splitTextFuel (cs co : Int) : Nat → List PyStr → PyStr → List PyStr
  | 0, seps, text => splitTextBody cs co none seps text
  | fuel + 1, seps, text =>
    splitTextBody cs co (some (splitTextFuel cs co fuel)) seps text

/-- The default separator list of `RecursiveCharacterTextSplitter`. -/
def defaultSeparators : List PyStr := [['\n', '\n'], ['\n'], [' '], []]

/-- `RecursiveCharacterTextSplitter(chunk_size=1000, chunk_overlap=150)
.split_text`, as configured in `get_rag_tool`; `split_documents` wraps
exactly these chunks into `Document` objects. -/
def split_text (text : PyStr) : List PyStr :=
  splitTextFuel 1000 150 defaultSeparators.length defaultSeparators text

/-! ## Document reader (`tools/document_reader_tool.py`) -/

/-- `os.path.splitext(p)[1]` (POSIX rules): the extension is the part of
`p` from its last dot on, provided that dot lies inside the basename
(after the last `/`) and the basename does not consist solely of dots up
to that point; otherwise the extension is empty. -/
def splitextExt (p : PyStr) : PyStr :=
  let lastIdxOf : Char → Option Nat := fun c =>
    (((p.enum).filter (fun ic => ic.2 == c)).map (fun ic => ic.1)).getLast?
  match lastIdxOf '.' with
  | none => []
  | some d =>
    let fstart := match lastIdxOf '/' with
      | none => 0
      | some k => k + 1
    if fstart ≤ d then
      if ((p.drop fstart).take (d - fstart)).any (fun c => c != '.') then
        p.drop d
      else []
    else []

/-- `str.lower()` on the ASCII range (sufficient for the extension
comparison in `_run`, whose reference extensions are ASCII). -/
def pyLower (s : PyStr) : PyStr := s.map Char.toLower

/-- Oracle environment for `DocumentReaderTool`: the file-system
existence check and the behaviour of the three underlying libraries on a
given path.  A library call that raises is an `Except.error` carrying
the exception text; a `pypdf` page whose `extract_text()` returns `None`
is modelled as the empty string (both are falsy in the `if page_text:`
test, with identical effect). -/
structure ReaderEnv where
  pathExists : PyStr → Bool
  pdfPages : PyStr → Except PyStr (List PyStr)
  docxParas : PyStr → Except PyStr (List PyStr)
  txtRead : PyStr → Except PyStr PyStr

/-- `DocumentReaderTool._read_pdf`: concatenate the non-empty page texts,
each followed by a newline; wrap an underlying exception. -/
def read_pdf (env : ReaderEnv) (file_path : PyStr) : Except PyStr PyStr :=
  match env.pdfPages file_path with
  | .error e => .error (str "Failed to read PDF: " ++ e)
  | .ok pages =>
    .ok (pages.foldl (fun text pt => if pt.isEmpty then text else text ++ pt ++ ['\n']) [])

/-- `DocumentReaderTool._read_docx`: concatenate all paragraph texts,
each followed by a newline; wrap an underlying exception. -/
def read_docx (env : ReaderEnv) (file_path : PyStr) : Except PyStr PyStr :=
  match env.docxParas file_path with
  | .error e => .error (str "Failed to read DOCX: " ++ e)
  | .ok paras => .ok (paras.foldl (fun text pt => text ++ pt ++ ['\n']) [])

/-- `DocumentReaderTool._read_txt`: the file content read as UTF-8;
wrap an underlying exception (e.g. a decode error). -/
def read_txt (env : ReaderEnv) (file_path : PyStr) : Except PyStr PyStr :=
  match env.txtRead file_path with
  | .error e => .error (str "Failed to read TXT: " ++ e)
  | .ok content => .ok content

/-- `DocumentReaderTool._run`: existence check first, then dispatch on
the lowercased extension; any exception from a reader branch is caught
and rendered as an `Error reading file ...` message. -/
def reader_run (env : ReaderEnv) (file_path : PyStr) : PyStr :=
  if env.pathExists file_path = false then
    str "Error: File not found at path: " ++ file_path
  else
    let file_extension := pyLower (splitextExt file_path)
    if file_extension = str ".pdf" then
      match read_pdf env file_path with
      | .ok t => t
      | .error e => str "Error reading file " ++ file_path ++ str ": " ++ e
    else if file_extension = str ".docx" then
      match read_docx env file_path with
      | .ok t => t
      | .error e => str "Error reading file " ++ file_path ++ str ": " ++ e
    else if file_extension = str ".txt" then
      match read_txt env file_path with
      | .ok t => t
      | .error e => str "Error reading file " ++ file_path ++ str ": " ++ e
    else
      str "Error: Unsupported file type: " ++ file_extension ++
        str ". Only .pdf, .docx, and .txt are supported."

/-! ## Pipeline orchestrator (`tools/rag_manager.py`) -/

/-- Oracle environment for `get_rag_tool` beyond the reader: each
external stage that can raise is an `Except`; `score` is the similarity
(query, stored chunk) ↦ score induced by the embedding model, used by
the vector index's top-k search. -/
structure RagEnv where
  reader : ReaderEnv
  /-- `HuggingFaceEmbeddings(...)` construction. -/
  embedInit : Except PyStr Unit
  /-- `MongoClient(uri)` plus first access to the database/collection. -/
  connect : PyStr → Except PyStr Unit
  /-- `collection.delete_many({})`. -/
  deleteMany : Except PyStr Unit
  /-- `MongoDBAtlasVectorSearch.from_documents(...)`: embed and insert
  the given chunk texts. -/
  store : List PyStr → Except PyStr Unit
  /-- `as_retriever` / `create_retriever_tool` construction. -/
  retrieverCtor : Except PyStr Unit
  /-- Similarity score of a stored chunk for a query. -/
  score : PyStr → PyStr → Int

/-- A CrewAI/LangChain tool handle: name, description, and the
string-to-string `_run`/invocation function. -/
structure Tool where
  name : PyStr
  description : PyStr
  run : PyStr → PyStr

/-- `retriever.invoke(query)` with `search_type="similarity"`,
`k = 5`: the stored chunks ranked by descending similarity to the
query, truncated to the top five.  (Every result is one of the stored
chunks.) -/
def queryResults (env : RagEnv) (coll : List PyStr) (q : PyStr) : List PyStr :=
  (coll.mergeSort (fun a b => env.score q b ≤ env.score q a)).take 5

/-- `create_retriever_tool`'s rendering of retrieved documents: their
page contents joined by blank lines. -/
def renderResults (rs : List PyStr) : PyStr :=
  List.intercalate (str "\n\n") rs

/-- `get_rag_tool(file_path, mongo_uri, db_name, collection_name,
index_name)`, threaded over the state of the target MongoDB collection
(the list of stored chunk texts).  The two front failure branches return
the source's dummy `ErrorTool`; from the embedding stage on, the source
has no exception handler, so a raising stage is an `Except.error`
propagating to the caller. -/
def get_rag_tool (env : RagEnv)
    (file_path mongo_uri db_name collection_name index_name : PyStr)
    (coll : List PyStr) : Except PyStr (Tool × List PyStr) :=
  let document_text := reader_run env.reader file_path
  if startsWithChars (str "Error:") document_text then
    .ok ({ name := str "Error Tool",
           description := str "A dummy tool that reports a document reading error.",
           run := fun _query => document_text }, coll)
  else
    let docs := split_text document_text
    if docs.isEmpty then
      .ok ({ name := str "Error Tool",
             description := str "A dummy tool that reports a document splitting error.",
             run := fun _query =>
               str "Error: Could not split document into text chunks." }, coll)
    else
      match env.embedInit with
      | .error e => .error e
      | .ok _ =>
      match env.connect mongo_uri with
      | .error e => .error e
      | .ok _ =>
      match env.deleteMany with
      | .error e => .error e
      | .ok _ =>
      -- collection cleared: `delete_many({})`
      match env.store docs with
      | .error e => .error e
      | .ok _ =>
      -- chunks embedded and inserted into the cleared collection
      match env.retrieverCtor with
      | .error e => .error e
      | .ok _ =>
        .ok ({ name := str "document_query_tool",
               description := str "A tool to query the uploaded document. Use this to find specific information, facts, or answers from the document's content.",
               run := fun query => renderResults (queryResults env docs query) },
             docs)

/-! ## Concrete oracle environments for witnesses and counterexamples -/

/-- Reader environment of a file system where every path exists and is a
UTF-8 text file with the given content. -/
def txtReaderEnv (content : PyStr) : ReaderEnv :=
  { pathExists := fun _ => true
    pdfPages := fun _ => .error (str "not a pdf")
    docxParas := fun _ => .error (str "not a docx")
    txtRead := fun _ => .ok content }

/-- Reader environment of a file system with no files at all. -/
def missingReaderEnv : ReaderEnv :=
  { pathExists := fun _ => false
    pdfPages := fun _ => .error (str "no such file")
    docxParas := fun _ => .error (str "no such file")
    txtRead := fun _ => .error (str "no such file") }

/-- Reader environment where every path is a PDF whose pages all
extract empty text (an image-only scan). -/
def pdfEmptyReaderEnv : ReaderEnv :=
  { pathExists := fun _ => true
    pdfPages := fun _ => .ok [[], []]
    docxParas := fun _ => .error (str "not a docx")
    txtRead := fun _ => .error (str "not a txt") }

/-- Pipeline environment where every external stage succeeds. -/
def okRagEnv (r : ReaderEnv) : RagEnv :=
  { reader := r
    embedInit := .ok ()
    connect := fun _ => .ok ()
    deleteMany := .ok ()
    store := fun _ => .ok ()
    retrieverCtor := .ok ()
    score := fun _ _ => 0 }

/-- Pipeline environment with a readable text file but an unreachable
MongoDB deployment: `MongoClient`/first collection access raises. -/
def connFailRagEnv : RagEnv :=
  { reader := txtReaderEnv (str "hello sales team")
    embedInit := .ok ()
    connect := fun _ => .error (str "connection refused")
    deleteMany := .ok ()
    store := fun _ => .ok ()
    retrieverCtor := .ok ()
    score := fun _ _ => 0 }

/-- The last `n` characters of a string. -/
def lastN (n : Nat) (l : PyStr) : PyStr := l.drop (l.length - n)

/-- Sliding windows of width 1000 and stride 850 = 1000 − 150. -/
def windows (T : PyStr) : List PyStr :=
  if T.length ≤ 1000 then (if T.isEmpty then [] else [T])
  else T.take 1000 :: windows (T.drop 850)
termination_by T.length
decreasing_by
  simp only [List.length_drop]
  omega

example : split_text [] = [] := by decide

example : split_text (str "hello sales team") = [str "hello sales team"] := by decide

example : splitextExt (str "data.csv") = str ".csv" := by decide
example : splitextExt (str "dir.d/file") = [] := by decide
example : splitextExt (str ".bashrc") = [] := by decide
example : splitextExt (str "a/b/c.TXT") = str ".TXT" := by decide

/-- The remaining-separator list returned by `chooseSepGo` is empty or
strictly shorter than the scanned list. -/
theorem chooseSepGo_length (text lastSep : PyStr) :
    ∀ seps : List PyStr, (chooseSepGo text lastSep seps).2 = [] ∨
      (chooseSepGo text lastSep seps).2.length < seps.length := by
  intro seps
  induction seps with
  | nil => simp [chooseSepGo]
  | cons s rest ih =>
    simp only [chooseSepGo]
    by_cases h1 : s.isEmpty
    · simp [h1]
    · simp only [h1, if_false]
      by_cases h2 : containsSub s text
      · simp [h2]
      · simp only [h2, if_false, List.length_cons]
        rcases ih with h | h
        · exact Or.inl h
        · exact Or.inr (Nat.lt_succ_of_lt h)

/-- Same bound for `chooseSep`. -/
theorem chooseSep_length (text : PyStr) (seps : List PyStr) :
    (chooseSep text seps).2 = [] ∨ (chooseSep text seps).2.length < seps.length :=
  chooseSepGo_length text (seps.getLastD []) seps

/-! ## Helper lemmas -/

/-- `_run` on a missing path: the `FileNotFound` message, before any
dispatch. -/
theorem reader_run_missing (env : ReaderEnv) (p : PyStr)
    (h : env.pathExists p = false) :
    reader_run env p = str "Error: File not found at path: " ++ p := by
  simp [reader_run, h]

/-- `_run` on an existing `.txt` path that decodes: the content,
verbatim. -/
theorem reader_run_txt (env : ReaderEnv) (p c : PyStr)
    (h1 : env.pathExists p = true) (h2 : pyLower (splitextExt p) = str ".txt")
    (h3 : env.txtRead p = .ok c) :
    reader_run env p = c := by
  simp +decide [reader_run, h1, h2, read_txt, h3]

/-- Any extracted text that does not start with `Error:` and splits into
no chunks makes `get_rag_tool` return the splitting `ErrorTool` with the
collection state untouched. -/
theorem get_rag_tool_split_error (env : RagEnv)
    (p uri db coll idx : PyStr) (st : List PyStr)
    (h1 : startsWithChars (str "Error:") (reader_run env.reader p) = false)
    (h2 : split_text (reader_run env.reader p) = []) :
    ∃ t, get_rag_tool env p uri db coll idx st = .ok (t, st) ∧
      t.name = str "Error Tool" ∧
      ∀ q, t.run q = str "Error: Could not split document into text chunks." := by
  refine ⟨{ name := str "Error Tool",
            description := str "A dummy tool that reports a document splitting error.",
            run := fun _query =>
              str "Error: Could not split document into text chunks." },
          ?_, rfl, fun _ => rfl⟩
  simp [get_rag_tool, h1, h2]

/-- Every retrieval result is one of the stored chunks. -/
theorem queryResults_mem (env : RagEnv) (coll : List PyStr) (q r : PyStr)
    (h : r ∈ queryResults env coll q) : r ∈ coll := by
  have h1 : r ∈ coll.mergeSort (fun a b => env.score q b ≤ env.score q a) :=
    List.take_subset _ _ h
  exact ((List.mergeSort_perm coll _).mem_iff).mp h1

/-! ## Claim theorems -/

/-- C5: for every file path that does not exist, `_run` returns the
`FileNotFound` error message, and the check precedes extension dispatch:
the message is the same for every extension, supported or not, and is
independent of every reader oracle. -/
theorem C5_file_not_found_before_dispatch (env : ReaderEnv) (p : PyStr)
    (h : env.pathExists p = false) :
    reader_run env p = str "Error: File not found at path: " ++ p ∧
    ∀ env' : ReaderEnv, env'.pathExists = env.pathExists →
      reader_run env' p = str "Error: File not found at path: " ++ p := by
  refine ⟨reader_run_missing env p h, fun env' h' => ?_⟩
  exact reader_run_missing env' p (by rw [h', h])

/-- C5 witness: a concrete missing `.pdf` path (an unsupported-extension
path such as `archive.zip` behaves identically). -/
theorem C5_witness :
    missingReaderEnv.pathExists (str "gone.pdf") = false ∧
    reader_run missingReaderEnv (str "gone.pdf") =
      str "Error: File not found at path: " ++ str "gone.pdf" :=
  ⟨by decide, (C5_file_not_found_before_dispatch missingReaderEnv (str "gone.pdf")
      (by decide)).1⟩

/-- C4: for every existing file path whose (lowercased) extension is not
`.pdf`, `.docx` or `.txt`, `_run` returns the `UnsupportedFormat` error
message, and no format-specific parsing is attempted: the result does
not depend on the PDF/DOCX/TXT reader oracles at all. -/
theorem C4_unsupported_extension (env : ReaderEnv) (p : PyStr)
    (hex : env.pathExists p = true)
    (h1 : pyLower (splitextExt p) ≠ str ".pdf")
    (h2 : pyLower (splitextExt p) ≠ str ".docx")
    (h3 : pyLower (splitextExt p) ≠ str ".txt") :
    reader_run env p = str "Error: Unsupported file type: " ++
      pyLower (splitextExt p) ++ str ". Only .pdf, .docx, and .txt are supported." ∧
    ∀ env' : ReaderEnv, env'.pathExists p = true → reader_run env' p = reader_run env p := by
  have key : ∀ env'' : ReaderEnv, env''.pathExists p = true →
      reader_run env'' p = str "Error: Unsupported file type: " ++
        pyLower (splitextExt p) ++ str ". Only .pdf, .docx, and .txt are supported." := by
    intro env'' h''
    simp [reader_run, h'', h1, h2, h3]
  exact ⟨key env hex, fun env' h' => by rw [key env' h', key env hex]⟩

/-- C4 witness: a `.csv` file (note the result, in particular, ignores
the reader oracles: `txtReaderEnv` would happily read it as text). -/
theorem C4_witness :
    (txtReaderEnv (str "a,b\x0ac,d")).pathExists (str "data.csv") = true ∧
    reader_run (txtReaderEnv (str "a,b\x0ac,d")) (str "data.csv") =
      str "Error: Unsupported file type: " ++ str ".csv" ++
        str ". Only .pdf, .docx, and .txt are supported." := by
  refine ⟨by decide, ?_⟩
  have h := (C4_unsupported_extension (txtReaderEnv (str "a,b\x0ac,d")) (str "data.csv")
    (by decide) (by decide) (by decide) (by decide)).1
  rw [h]
  decide

/-- C9: for every existing `.txt` path whose bytes decode as UTF-8,
`_run` returns the decoded file content verbatim. -/
theorem C9_txt_verbatim (env : ReaderEnv) (p c : PyStr)
    (h1 : env.pathExists p = true)
    (h2 : pyLower (splitextExt p) = str ".txt")
    (h3 : env.txtRead p = .ok c) :
    reader_run env p = c :=
  reader_run_txt env p c h1 h2 h3

/-- C9 witness: a one-line text file is returned exactly. -/
theorem C9_witness :
    reader_run (txtReaderEnv (str "The sky is blue.")) (str "notes.txt") =
      str "The sky is blue." :=
  C9_txt_verbatim (txtReaderEnv (str "The sky is blue.")) (str "notes.txt")
    (str "The sky is blue.") (by decide) (by decide) rfl

/-- C1: on a read failure `get_rag_tool` returns a tool named
`Error Tool` that answers every query with the captured read-error
message and leaves the collection untouched; on an empty chunk list it
likewise returns an `Error Tool` answering every query with the captured
splitting-error message; and whenever the pipeline runs to a tool with
neither failure, the returned tool is named `document_query_tool`. -/
theorem C1_tool_names_and_error_echo (env : RagEnv)
    (p uri db coll idx : PyStr) (st : List PyStr) :
    (startsWithChars (str "Error:") (reader_run env.reader p) = true →
      ∃ t, get_rag_tool env p uri db coll idx st = .ok (t, st) ∧
        t.name = str "Error Tool" ∧
        ∀ q, t.run q = reader_run env.reader p) ∧
    (startsWithChars (str "Error:") (reader_run env.reader p) = false →
      split_text (reader_run env.reader p) = [] →
      ∃ t, get_rag_tool env p uri db coll idx st = .ok (t, st) ∧
        t.name = str "Error Tool" ∧
        ∀ q, t.run q = str "Error: Could not split document into text chunks.") ∧
    (startsWithChars (str "Error:") (reader_run env.reader p) = false →
      split_text (reader_run env.reader p) ≠ [] →
      ∀ t st2, get_rag_tool env p uri db coll idx st = .ok (t, st2) →
        t.name = str "document_query_tool") := by
  refine ⟨fun h1 => ?_, fun h1 h2 => get_rag_tool_split_error env p uri db coll idx st h1 h2,
    fun h1 h2 t st2 hres => ?_⟩
  · refine ⟨{ name := str "Error Tool",
              description := str "A dummy tool that reports a document reading error.",
              run := fun _query => reader_run env.reader p },
            ?_, rfl, fun _ => rfl⟩
    simp [get_rag_tool, h1]
  · have h2' : (split_text (reader_run env.reader p)).isEmpty = false := by
      simpa [List.isEmpty_iff] using h2
    rcases he : env.embedInit with e | u
    · simp [get_rag_tool, h1, h2', he] at hres
    rcases hc : env.connect uri with e | u2
    · simp [get_rag_tool, h1, h2', he, hc] at hres
    rcases hd : env.deleteMany with e | u3
    · simp [get_rag_tool, h1, h2', he, hc, hd] at hres
    rcases hs : env.store (split_text (reader_run env.reader p)) with e | u4
    · simp [get_rag_tool, h1, h2', he, hc, hd, hs] at hres
    rcases hr : env.retrieverCtor with e | u5
    · simp [get_rag_tool, h1, h2', he, hc, hd, hs, hr] at hres
    · simp [get_rag_tool, h1, h2', he, hc, hd, hs, hr] at hres
      rw [← hres.1]

/-- C1 witness: ingesting a missing path yields the `Error Tool` whose
every invocation repeats the `FileNotFound` message; a successful
ingestion of a text file yields the `document_query_tool`. -/
theorem C1_witness :
    (∃ t, get_rag_tool (okRagEnv missingReaderEnv) (str "gone.txt")
        (str "uri") (str "db") (str "c") (str "i") [] = .ok (t, []) ∧
      t.name = str "Error Tool" ∧
      ∀ q, t.run q = reader_run missingReaderEnv (str "gone.txt")) ∧
    (∀ t st2, get_rag_tool (okRagEnv (txtReaderEnv (str "hello")))
        (str "doc.txt") (str "uri") (str "db") (str "c") (str "i") [] = .ok (t, st2) →
      t.name = str "document_query_tool") :=
  ⟨(C1_tool_names_and_error_echo (okRagEnv missingReaderEnv) (str "gone.txt")
      (str "uri") (str "db") (str "c") (str "i") []).1 (by decide),
   (C1_tool_names_and_error_echo (okRagEnv (txtReaderEnv (str "hello"))) (str "doc.txt")
      (str "uri") (str "db") (str "c") (str "i") []).2.2 (by decide) (by decide)⟩

/-- C7: splitting the empty text produces no chunks, and an extraction
that returns the empty text makes `get_rag_tool` return the
`NoChunksProduced`-style `ErrorTool` (message `Error: Could not split
document into text chunks.`) with the collection state untouched — the
clearing, embedding and storage stages are never reached (the result and
state do not involve the post-splitting oracles). -/
theorem C7_empty_text_no_chunks (env : RagEnv)
    (p uri db coll idx : PyStr) (st : List PyStr)
    (h : reader_run env.reader p = []) :
    split_text [] = [] ∧
    ∃ t, get_rag_tool env p uri db coll idx st = .ok (t, st) ∧
      t.name = str "Error Tool" ∧
      ∀ q, t.run q = str "Error: Could not split document into text chunks." := by
  refine ⟨by decide, get_rag_tool_split_error env p uri db coll idx st ?_ ?_⟩
  · rw [h]; decide
  · rw [h]; decide

/-- C7 witness: an existing, readable, empty text file. -/
theorem C7_witness :
    ∃ t, get_rag_tool (okRagEnv (txtReaderEnv [])) (str "empty.txt")
        (str "uri") (str "db") (str "c") (str "i") (str "old" :: []) =
      .ok (t, str "old" :: []) ∧
      t.name = str "Error Tool" ∧
      ∀ q, t.run q = str "Error: Could not split document into text chunks." :=
  (C7_empty_text_no_chunks (okRagEnv (txtReaderEnv [])) (str "empty.txt")
    (str "uri") (str "db") (str "c") (str "i") (str "old" :: []) (by decide)).2

/-- C10: the orchestrator classifies extraction failure solely by the
`Error:` prefix of the returned text, so a successfully read `.txt`
document whose own content begins with `Error:` is misclassified: the
pipeline returns the reading `Error Tool`, and its every invocation
echoes the document's content. -/
theorem C10_error_prefix_misclassification (env : RagEnv) (p c : PyStr)
    (uri db coll idx : PyStr) (st : List PyStr)
    (h1 : env.reader.pathExists p = true)
    (h2 : pyLower (splitextExt p) = str ".txt")
    (h3 : env.reader.txtRead p = .ok c)
    (h4 : startsWithChars (str "Error:") c = true) :
    ∃ t, get_rag_tool env p uri db coll idx st = .ok (t, st) ∧
      t.name = str "Error Tool" ∧
      ∀ q, t.run q = c := by
  have hc : reader_run env.reader p = c := reader_run_txt env.reader p c h1 h2 h3
  refine ⟨{ name := str "Error Tool",
            description := str "A dummy tool that reports a document reading error.",
            run := fun _query => reader_run env.reader p },
          ?_, rfl, fun _ => hc⟩
  simp [get_rag_tool, hc, h4]

/-- C10 witness: a readable text file whose first line starts with
`Error:` is turned into an `Error Tool` echoing the file's content. -/
theorem C10_witness :
    ∃ t, get_rag_tool (okRagEnv (txtReaderEnv (str "Error: report draft")))
        (str "doc.txt") (str "uri") (str "db") (str "c") (str "i") [] = .ok (t, []) ∧
      t.name = str "Error Tool" ∧
      ∀ q, t.run q = str "Error: report draft" :=
  C10_error_prefix_misclassification (okRagEnv (txtReaderEnv (str "Error: report draft")))
    (str "doc.txt") (str "Error: report draft") (str "uri") (str "db") (str "c") (str "i")
    [] (by decide) (by decide) rfl (by decide)

/-- Folding empty page texts leaves the accumulated PDF text unchanged
(`if page_text:` skips falsy pages). -/
theorem pdf_fold_empty_pages (pages : List PyStr) (acc : PyStr)
    (h : ∀ g ∈ pages, g = []) :
    pages.foldl (fun text pt => if pt.isEmpty then text else text ++ pt ++ ['\n']) acc
      = acc := by
  induction pages generalizing acc with
  | nil => rfl
  | cons g rest ih =>
    have hg : g = [] := h g (by simp)
    simp only [List.foldl, hg, List.isEmpty_nil, if_pos rfl]
    exact ih acc (fun g' hg' => h g' (by simp [hg']))

/-- C6 counterexample: a PDF whose pages all extract empty text.  The
extractor returns the empty string as an ordinary result — it does not
start with `Error:`, i.e. there is no `EmptyExtraction` (nor any other)
error, contradicting the claim. -/
theorem C6_counterexample :
    reader_run pdfEmptyReaderEnv (str "scan.pdf") = [] ∧
    startsWithChars (str "Error:") (reader_run pdfEmptyReaderEnv (str "scan.pdf"))
      = false := by
  constructor <;> decide

/-- C6 (amended): a PDF whose pages all extract empty text (or a DOCX
with no paragraphs) makes the extractor return the empty string as an
ordinary non-error result — there is no `EmptyExtraction` error in the
code; the empty text is only surfaced downstream, when the orchestrator
finds no chunks and returns the splitting `ErrorTool`. -/
theorem C6_amended_empty_extraction (env : RagEnv)
    (p uri db coll idx : PyStr) (st : List PyStr) :
    (∀ pages, env.reader.pathExists p = true →
      pyLower (splitextExt p) = str ".pdf" →
      env.reader.pdfPages p = .ok pages →
      (∀ g ∈ pages, g = []) →
      reader_run env.reader p = [] ∧
      ∃ t, get_rag_tool env p uri db coll idx st = .ok (t, st) ∧
        t.name = str "Error Tool" ∧
        ∀ q, t.run q = str "Error: Could not split document into text chunks.") ∧
    (env.reader.pathExists p = true →
      pyLower (splitextExt p) = str ".docx" →
      env.reader.docxParas p = .ok [] →
      reader_run env.reader p = [] ∧
      ∃ t, get_rag_tool env p uri db coll idx st = .ok (t, st) ∧
        t.name = str "Error Tool" ∧
        ∀ q, t.run q = str "Error: Could not split document into text chunks.") := by
  constructor
  · intro pages h1 h2 h3 h4
    have hpdf : read_pdf env.reader p = Except.ok [] := by
      simp only [read_pdf, h3]
      rw [pdf_fold_empty_pages pages [] h4]
    have hrd : reader_run env.reader p = [] := by
      simp +decide [reader_run, h1, h2, hpdf]
    exact ⟨hrd, get_rag_tool_split_error env p uri db coll idx st
      (by rw [hrd]; decide) (by rw [hrd]; decide)⟩
  · intro h1 h2 h3
    have hrd : reader_run env.reader p = [] := by
      simp +decide [reader_run, h1, h2, read_docx, h3]
    exact ⟨hrd, get_rag_tool_split_error env p uri db coll idx st
      (by rw [hrd]; decide) (by rw [hrd]; decide)⟩

/-- C6 amended witness: the concrete image-only scan. -/
theorem C6_witness :
    reader_run (okRagEnv pdfEmptyReaderEnv).reader (str "scan.pdf") = [] ∧
    ∃ t, get_rag_tool (okRagEnv pdfEmptyReaderEnv) (str "scan.pdf")
        (str "uri") (str "db") (str "c") (str "i") [] = .ok (t, []) ∧
      t.name = str "Error Tool" ∧
      ∀ q, t.run q = str "Error: Could not split document into text chunks." :=
  (C6_amended_empty_extraction (okRagEnv pdfEmptyReaderEnv) (str "scan.pdf")
    (str "uri") (str "db") (str "c") (str "i") []).1 [[], []]
    (by decide) (by decide) rfl (by decide)

/-- C2 counterexample: a readable text document, a MongoDB deployment
whose connection raises.  `get_rag_tool` does not catch the exception:
it propagates to the caller instead of being converted into a degenerate
`ToolHandle`. -/
theorem C2_counterexample :
    get_rag_tool connFailRagEnv (str "doc.txt") (str "mongodb://bad-host")
        (str "db") (str "c") (str "i") [] = .error (str "connection refused") ∧
    ¬ ∃ t st2, get_rag_tool connFailRagEnv (str "doc.txt") (str "mongodb://bad-host")
        (str "db") (str "c") (str "i") [] = .ok (t, st2) := by
  refine ⟨rfl, ?_⟩
  rintro ⟨t, st2, h⟩
  rw [show get_rag_tool connFailRagEnv (str "doc.txt") (str "mongodb://bad-host")
        (str "db") (str "c") (str "i") [] = .error (str "connection refused") from rfl]
      at h
  exact Except.noConfusion h

/-- C2 (amended): only the two front failures (read error, empty chunk
list) are converted into a degenerate `ErrorTool`; once those are
passed, an exception raised by any later stage — embeddings
construction, MongoDB connection, `delete_many`, the embed-and-store
call, or retriever construction — propagates out of `get_rag_tool`
uncaught. -/
theorem C2_amended_late_exceptions_propagate (env : RagEnv)
    (p uri db coll idx : PyStr) (st : List PyStr)
    (h1 : startsWithChars (str "Error:") (reader_run env.reader p) = false)
    (h2 : split_text (reader_run env.reader p) ≠ []) :
    (∀ e, env.embedInit = .error e →
      get_rag_tool env p uri db coll idx st = .error e) ∧
    (∀ e, env.embedInit = .ok () → env.connect uri = .error e →
      get_rag_tool env p uri db coll idx st = .error e) ∧
    (∀ e, env.embedInit = .ok () → env.connect uri = .ok () →
      env.deleteMany = .error e →
      get_rag_tool env p uri db coll idx st = .error e) ∧
    (∀ e, env.embedInit = .ok () → env.connect uri = .ok () →
      env.deleteMany = .ok () →
      env.store (split_text (reader_run env.reader p)) = .error e →
      get_rag_tool env p uri db coll idx st = .error e) ∧
    (∀ e, env.embedInit = .ok () → env.connect uri = .ok () →
      env.deleteMany = .ok () →
      env.store (split_text (reader_run env.reader p)) = .ok () →
      env.retrieverCtor = .error e →
      get_rag_tool env p uri db coll idx st = .error e) := by
  have h2' : (split_text (reader_run env.reader p)).isEmpty = false := by
    simpa [List.isEmpty_iff] using h2
  refine ⟨?_, ?_, ?_, ?_, ?_⟩
  · intro e he
    simp [get_rag_tool, h1, h2', he]
  · intro e he hc
    simp [get_rag_tool, h1, h2', he, hc]
  · intro e he hc hd
    simp [get_rag_tool, h1, h2', he, hc, hd]
  · intro e he hc hd hs
    simp [get_rag_tool, h1, h2', he, hc, hd, hs]
  · intro e he hc hd hs hr
    simp [get_rag_tool, h1, h2', he, hc, hd, hs, hr]

/-- C2 amended witness: the connection-failure environment from the
counterexample, hitting the MongoDB-connection conjunct. -/
theorem C2_witness :
    get_rag_tool connFailRagEnv (str "doc.txt") (str "mongodb://bad-host")
        (str "db") (str "c") (str "i") [] = .error (str "connection refused") :=
  (C2_amended_late_exceptions_propagate connFailRagEnv (str "doc.txt")
      (str "mongodb://bad-host") (str "db") (str "c") (str "i") []
      (by decide) (by decide)).2.1
    (str "connection refused") rfl rfl

/-- C3: the collection is cleared (`delete_many({})`) before the new
chunks are stored, so an ingestion that reaches the storage stage leaves
the collection holding *exactly* the new document's chunks, whatever the
prior collection state was (in particular, the state left by a previous
document's ingestion).  Consequently every retrieval result afterwards
is one of the new document's chunks, and any chunk of the previous
document that is not also a chunk of the new one can never appear in a
retrieval result. -/
theorem C3_clear_then_store_isolation (env : RagEnv)
    (pB uri db coll idx : PyStr) (stPrev : List PyStr)
    (h1 : startsWithChars (str "Error:") (reader_run env.reader pB) = false)
    (h2 : split_text (reader_run env.reader pB) ≠ [])
    (he : env.embedInit = .ok ()) (hc : env.connect uri = .ok ())
    (hd : env.deleteMany = .ok ())
    (hs : env.store (split_text (reader_run env.reader pB)) = .ok ())
    (hr : env.retrieverCtor = .ok ()) :
    ∃ t, get_rag_tool env pB uri db coll idx stPrev =
        .ok (t, split_text (reader_run env.reader pB)) ∧
      (∀ q r, r ∈ queryResults env (split_text (reader_run env.reader pB)) q →
        r ∈ split_text (reader_run env.reader pB)) ∧
      (∀ a, a ∉ split_text (reader_run env.reader pB) →
        ∀ q, a ∉ queryResults env (split_text (reader_run env.reader pB)) q) := by
  have h2' : (split_text (reader_run env.reader pB)).isEmpty = false := by
    simpa [List.isEmpty_iff] using h2
  refine ⟨{ name := str "document_query_tool",
            description := str "A tool to query the uploaded document. Use this to find specific information, facts, or answers from the document's content.",
            run := fun query =>
              renderResults (queryResults env (split_text (reader_run env.reader pB)) query) },
    ?_, fun q r hm => queryResults_mem env _ q r hm,
    fun a ha q hm => ha (queryResults_mem env _ q a hm)⟩
  simp [get_rag_tool, h1, h2', he, hc, hd, hs, hr]

/-- C3 witness: ingesting `doc.txt` over a collection still holding a
previous document's chunk (`old chunk`). -/
theorem C3_witness :
    ∃ t, get_rag_tool (okRagEnv (txtReaderEnv (str "hello sales team")))
        (str "doc.txt") (str "uri") (str "db") (str "c") (str "i")
        (str "old chunk" :: []) =
      .ok (t, split_text (str "hello sales team")) ∧
      (∀ q r, r ∈ queryResults (okRagEnv (txtReaderEnv (str "hello sales team")))
          (split_text (str "hello sales team")) q →
        r ∈ split_text (str "hello sales team")) ∧
      (∀ a, a ∉ split_text (str "hello sales team") →
        ∀ q, a ∉ queryResults (okRagEnv (txtReaderEnv (str "hello sales team")))
          (split_text (str "hello sales team")) q) := by
  have h := C3_clear_then_store_isolation (okRagEnv (txtReaderEnv (str "hello sales team")))
    (str "doc.txt") (str "uri") (str "db") (str "c") (str "i") (str "old chunk" :: [])
    (by decide) (by decide) rfl rfl rfl rfl rfl
  have hrd : reader_run (okRagEnv (txtReaderEnv (str "hello sales team"))).reader
      (str "doc.txt") = str "hello sales team" := by decide
  rwa [hrd] at h

/-! ## Chunk-overlap analysis (claim C8)

For text containing none of the splitter's separator characters the
recursive splitter falls through to character-level splitting, and
`_merge_splits` then produces the sliding windows `windows T`: chunks of
1000 characters starting every 850 characters, with a final chunk of at
most 1000 characters.  Adjacent windows share exactly 150 characters.
For general text the merge works on whole separator-delimited pieces and
the shared overlap can be shorter (see the counterexample). -/

theorem windows_nil : windows [] = [] := by
  rw [windows]
  simp

theorem windows_le (T : PyStr) (h1 : T.length ≤ 1000) (h2 : T ≠ []) :
    windows T = [T] := by
  rw [windows]
  simp [h1, h2]

theorem windows_gt (T : PyStr) (h : 1000 < T.length) :
    windows T = T.take 1000 :: windows (T.drop 850) := by
  rw [windows]
  simp [Nat.not_le.mpr h]

/-- A string with no whitespace characters is unchanged by `strip`. -/
theorem pyStrip_eq_self (l : PyStr) (h : ∀ c ∈ l, pyIsSpace c = false) :
    pyStrip l = l := by
  have key : ∀ m : PyStr, (∀ c ∈ m, pyIsSpace c = false) → m.dropWhile pyIsSpace = m := by
    intro m hm
    cases m with
    | nil => rfl
    | cons x xs => simp [List.dropWhile_cons, hm x (by simp)]
  unfold pyStrip
  rw [key l h, key l.reverse (by intro c hc; exact h c (List.mem_reverse.mp hc)),
    List.reverse_reverse]

/-- Joining singleton splits with the empty separator flattens back to
the original character list. -/
theorem intercalate_nil_singletons (l : PyStr) :
    List.intercalate [] (l.map fun c => [c]) = l := by
  induction l with
  | nil => rfl
  | cons x xs ih =>
    cases xs with
    | nil => rfl
    | cons y ys =>
      simp only [List.map] at ih ⊢
      simp only [List.intercalate, List.intersperse] at ih ⊢
      simpa using ih

/-- `_join_docs` on non-whitespace singleton splits returns the original
non-empty character list. -/
theorem joinDocs_singletons (l : PyStr) (hws : ∀ c ∈ l, pyIsSpace c = false)
    (hne : l ≠ []) :
    joinDocs [] (l.map fun c => [c]) = some l := by
  unfold joinDocs
  rw [intercalate_nil_singletons l, pyStrip_eq_self l hws]
  simp [hne]

/-- A pattern whose head occurs nowhere in the text is not found. -/
theorem containsSub_head_false (a : Char) (pat T : PyStr)
    (h : ∀ c ∈ T, (a == c) = false) :
    containsSub (a :: pat) T = false := by
  induction T with
  | nil => rfl
  | cons c rest ih =>
    simp only [containsSub, startsWithChars, h c (by simp), Bool.false_and,
      Bool.false_or]
    exact ih (fun c' hc' => h c' (by simp [hc']))

/-- On whitespace-free text the default separator list falls through to
the character separator. -/
theorem chooseSep_default_nows (T : PyStr)
    (h : ∀ c ∈ T, pyIsSpace c = false) :
    chooseSep T defaultSeparators = ([], []) := by
  have hn : ∀ c ∈ T, (('\n' : Char) == c) = false := by
    intro c hc
    have hps := h c hc
    rw [beq_eq_false_iff_ne]
    intro heq
    rw [← heq] at hps
    have hnl : pyIsSpace '\n' = true := by decide
    rw [hnl] at hps
    exact Bool.noConfusion hps
  have hsp : ∀ c ∈ T, ((' ' : Char) == c) = false := by
    intro c hc
    have hps := h c hc
    rw [beq_eq_false_iff_ne]
    intro heq
    rw [← heq] at hps
    have hspc : pyIsSpace ' ' = true := by decide
    rw [hspc] at hps
    exact Bool.noConfusion hps
  unfold chooseSep defaultSeparators
  simp only [chooseSepGo, List.getLastD]
  rw [containsSub_head_false '\n' ['\n'] T hn, containsSub_head_false '\n' [] T hn,
    containsSub_head_false ' ' [] T hsp]
  simp [chooseSepGo]

/-- Character-level splitting of whitespace-free text keeps every
character as its own split. -/
theorem splitKeep_nil_sep (T : PyStr) :
    splitKeep [] T = T.map fun c => [c] := by
  unfold splitKeep
  induction T with
  | nil => rfl
  | cons x xs ih => simpa using ih

theorem popLoop_singletons :
    ∀ l : List Char, 150 < l.length →
      popLoop 1000 150 0 1 (l.map fun c => [c]) (l.length : Int) =
        ((l.drop (l.length - 150)).map fun c => [c], 150) := by
  intro l
  induction l with
  | nil => intro h; simp at h
  | cons c tl ih =>
    intro h
    simp only [List.length_cons] at h
    simp only [List.map_cons, List.length_cons]
    rw [popLoop]
    rw [if_pos (Or.inl (by exact_mod_cast h))]
    have htot : (((tl.length + 1 : Nat)) : Int) -
        ((([c] : PyStr).length : Int) +
          if (List.map (fun c => [c]) tl).isEmpty = true then (0 : Int) else 0) =
        (tl.length : Int) := by
      simp only [ite_self, List.length_singleton]
      push_cast
      ring
    rw [htot]
    by_cases h150 : 150 < tl.length
    · rw [show tl.length + 1 - 150 = (tl.length - 150) + 1 from by omega,
        List.drop_succ_cons]
      exact ih h150
    · have h150' : tl.length = 150 := by omega
      rw [h150']
      rw [show (150 : Nat) + 1 - 150 = 1 from by omega, List.drop_one, List.tail_cons]
      cases tl with
      | nil => simp at h150'
      | cons t ts =>
        simp only [List.map_cons]
        rw [popLoop]
        rw [if_neg (by omega)]
        norm_num

theorem mergeGo_singletons :
    ∀ (rest cur : List Char) (docs : List PyStr),
      cur ≠ [] → cur.length ≤ 1000 →
      (∀ c ∈ cur, pyIsSpace c = false) → (∀ c ∈ rest, pyIsSpace c = false) →
      mergeGo 1000 150 0 [] docs (cur.map fun c => [c]) (cur.length : Int)
          (rest.map fun c => [c]) =
        docs ++ windows (cur ++ rest) := by
  intro rest
  induction rest with
  | nil =>
    intro cur docs hne hle hws _
    show docs ++ (joinDocs [] (cur.map fun c => [c])).toList = docs ++ windows (cur ++ [])
    rw [joinDocs_singletons cur hws hne, List.append_nil, windows_le cur hle hne]
    rfl
  | cons d rest ih =>
    intro cur docs hne hle hws hws2
    have hwd : pyIsSpace d = false := hws2 d (by simp)
    have hws2' : ∀ c ∈ rest, pyIsSpace c = false := fun c hc => hws2 c (by simp [hc])
    obtain ⟨x, xs, rfl⟩ : ∃ x xs, cur = x :: xs := by
      cases cur with
      | nil => exact absurd rfl hne
      | cons x xs => exact ⟨x, xs, rfl⟩
    simp only [List.map_cons]
    rw [mergeGo]
    simp only [List.length_singleton, Nat.cast_one, ite_self, add_zero,
      List.isEmpty_cons]
    split
    next hcond =>
      -- the pending chunk holds exactly 1000 characters: emit, keep 150
      have hx : (x :: xs).length = 1000 := by omega
      have hx' : xs.length = 999 := by
        simp only [List.length_cons] at hx
        omega
      have hpop := popLoop_singletons (x :: xs) (by omega)
      simp only [List.map_cons] at hpop
      have hjoin := joinDocs_singletons (x :: xs) hws hne
      simp only [List.map_cons] at hjoin
      simp only [hpop, hjoin, Option.toList_some, ite_self, add_zero]
      have hlen2 : (List.drop ((x :: xs).length - 150) (x :: xs) ++ [d]).length = 151 := by
        simp only [List.length_append, List.length_drop, List.length_cons,
          List.length_singleton, List.length_nil]
        omega
      have hchars2 : ∀ c ∈ List.drop ((x :: xs).length - 150) (x :: xs) ++ [d],
          pyIsSpace c = false := by
        intro c hc
        rcases List.mem_append.mp hc with hcl | hcl
        · exact hws c (List.mem_of_mem_drop hcl)
        · simp only [List.mem_singleton] at hcl
          rw [hcl]
          exact hwd
      have ihinst := ih (List.drop ((x :: xs).length - 150) (x :: xs) ++ [d])
        (docs ++ [x :: xs]) (by simp) (by rw [hlen2]; norm_num) hchars2 hws2'
      rw [hlen2] at ihinst
      push_cast at ihinst
      simp only [List.map_append, List.map_cons, List.map_nil] at ihinst
      rw [show (150 : Int) + 1 = 151 from by norm_num]
      rw [ihinst]
      have hlenT : 1000 < ((x :: xs) ++ (d :: rest)).length := by
        simp only [List.length_append, List.length_cons]
        omega
      conv_rhs => rw [windows_gt _ hlenT]
      have htake : ((x :: xs) ++ (d :: rest)).take 1000 = x :: xs := by
        rw [← hx]
        exact List.take_left (x :: xs) (d :: rest)
      have hdrop : ((x :: xs) ++ (d :: rest)).drop 850 =
          List.drop 850 (x :: xs) ++ d :: rest := by
        rw [List.drop_append_eq_append_drop]
        simp [hx]
      rw [htake, hdrop, show (x :: xs).length - 150 = 850 from by omega]
      simp [List.append_assoc]
    next hcond =>
      -- room left in the pending chunk: append the character
      have ihinst := ih ((x :: xs) ++ [d]) docs (by simp)
        (by simp only [List.length_append, List.length_singleton]; omega)
        (fun c hc => by
          rcases List.mem_append.mp hc with h1 | h1
          · exact hws c h1
          · simp only [List.mem_singleton] at h1
            rw [h1]
            exact hwd) hws2'
      simp only [List.map_append, List.map_cons, List.map_nil] at ihinst
      have hlen3 : ((x :: xs) ++ [d]).length = (x :: xs).length + 1 := by simp
      rw [hlen3] at ihinst
      push_cast at ihinst
      rw [ihinst]
      simp [List.append_assoc]

theorem regroup_inl (cs co : Int) :
    ∀ (L good : List PyStr),
      regroup cs co (L.map Sum.inl) good = mergeSplits cs co [] (good ++ L) := by
  intro L
  induction L with
  | nil =>
    intro good
    simp [regroup]
  | cons s L ih =>
    intro good
    simp only [List.map_cons, regroup]
    rw [ih (good ++ [s]), List.append_assoc, List.singleton_append]

theorem mergeSplits_singletons (T : List Char) (h : ∀ c ∈ T, pyIsSpace c = false) :
    mergeSplits 1000 150 [] (T.map fun c => [c]) = windows T := by
  cases T with
  | nil =>
    rw [windows_nil]
    rfl
  | cons x xs =>
    show mergeGo 1000 150 0 [] [] [] 0 ((x :: xs).map fun c => [c]) = windows (x :: xs)
    simp only [List.map_cons]
    rw [mergeGo]
    rw [if_neg (by norm_num)]
    have hinst := mergeGo_singletons xs [x] [] (by simp) (by simp)
      (fun c hc => by simp only [List.mem_singleton] at hc; rw [hc]; exact h x (by simp))
      (fun c hc => h c (by simp [hc]))
    simp only [List.map_cons, List.map_nil, List.length_singleton, Nat.cast_one,
      List.singleton_append] at hinst
    simp only [List.nil_append, List.length_singleton, Nat.cast_one, ite_self, add_zero,
      List.length_cons, List.length_nil]
    convert hinst using 2

theorem split_text_eq_windows (T : PyStr) (h : ∀ c ∈ T, pyIsSpace c = false) :
    split_text T = windows T := by
  rw [show split_text T =
    splitTextBody 1000 150 (some (splitTextFuel 1000 150 3)) defaultSeparators T from rfl]
  unfold splitTextBody
  rw [chooseSep_default_nows T h]
  dsimp only
  rw [splitKeep_nil_sep]
  have hmap : (T.map fun c => [c]).map
      (fun s => if ((s.length : Nat) : Int) < 1000 then Sum.inl s
        else Sum.inr [s]) = (T.map fun c => [c]).map Sum.inl := by
    apply List.map_congr_left
    intro s hs
    obtain ⟨c, _, rfl⟩ := List.mem_map.mp hs
    norm_num
  rw [hmap, regroup_inl, List.nil_append, mergeSplits_singletons T h]

theorem windows_length_le_one (T : PyStr) (h : T.length ≤ 1000) :
    (windows T).length ≤ 1 := by
  rw [windows, if_pos h]
  split <;> simp

theorem windows_getD_zero_take (T : PyStr) (h : T ≠ []) :
    ((windows T).getD 0 []).take 150 = T.take 150 := by
  rw [windows]
  split
  · simp [h]
  · simp only [List.getD_cons_zero]
    rw [List.take_take]
    norm_num

theorem windows_adjacent (T : PyStr) :
    ∀ i, i + 1 < (windows T).length →
      lastN 150 ((windows T).getD i []) = ((windows T).getD (i + 1) []).take 150 := by
  by_cases hle : T.length ≤ 1000
  · intro i hi
    exfalso
    have := windows_length_le_one T hle
    omega
  · have hgt : 1000 < T.length := by omega
    intro i hi
    rw [windows_gt T hgt] at hi ⊢
    cases i with
    | zero =>
      simp only [List.getD_cons_zero, List.getD_cons_succ]
      have hne' : T.drop 850 ≠ [] := by
        have hpos : 0 < (T.drop 850).length := by
          simp only [List.length_drop]
          omega
        exact List.ne_nil_of_length_pos hpos
      rw [windows_getD_zero_take (T.drop 850) hne']
      unfold lastN
      rw [List.length_take, show (1000 ⊓ T.length) - 150 = 850 from by omega,
        List.drop_take]
    | succ j =>
      simp only [List.getD_cons_succ]
      have hj : j + 1 < (windows (T.drop 850)).length := by
        simp only [List.length_cons] at hi
        omega
      exact windows_adjacent (T.drop 850) j hj
termination_by T.length
decreasing_by
  simp only [List.length_drop]
  omega

/-- C8 (amended): the exact-overlap property holds for whitespace-free
text, where the splitter falls through to character-level splitting: the
last 150 characters of each chunk equal the first 150 characters of the
next, and text of at most 1000 characters yields at most one chunk.  For
general text the chunker merges whole separator-delimited pieces, so the
shared overlap is at most — and possibly much less than — 150 characters
(see the counterexample). -/
theorem C8_amended_overlap (T : PyStr) (hws : ∀ c ∈ T, pyIsSpace c = false) :
    (∀ i, i + 1 < (split_text T).length →
      lastN 150 ((split_text T).getD i []) = ((split_text T).getD (i + 1) []).take 150) ∧
    (T.length ≤ 1000 → (split_text T).length ≤ 1) := by
  rw [split_text_eq_windows T hws]
  exact ⟨windows_adjacent T, windows_length_le_one T⟩

/-- C8 amended witness: 1200 copies of `a` (hypothesis discharged at a
concrete whitespace-free text longer than one chunk). -/
theorem C8_witness :
    (∀ c ∈ List.replicate 1200 'a', pyIsSpace c = false) ∧
    ((∀ i, i + 1 < (split_text (List.replicate 1200 'a')).length →
      lastN 150 ((split_text (List.replicate 1200 'a')).getD i []) =
        ((split_text (List.replicate 1200 'a')).getD (i + 1) []).take 150) ∧
     ((List.replicate 1200 'a').length ≤ 1000 →
       (split_text (List.replicate 1200 'a')).length ≤ 1)) :=
  ⟨fun c hc => by rw [(List.mem_replicate.mp hc).2]; decide,
   C8_amended_overlap (List.replicate 1200 'a')
     (fun c hc => by rw [(List.mem_replicate.mp hc).2]; decide)⟩

theorem dropWhile_nows (m : PyStr) (hm : ∀ c ∈ m, pyIsSpace c = false) :
    m.dropWhile pyIsSpace = m := by
  cases m with
  | nil => rfl
  | cons x xs => simp [List.dropWhile_cons, hm x (by simp)]

theorem pyStrip_space_cons (B : PyStr) (h : ∀ c ∈ B, pyIsSpace c = false) :
    pyStrip (' ' :: B) = B := by
  unfold pyStrip
  rw [List.dropWhile_cons, if_pos (by decide)]
  rw [dropWhile_nows B h,
    dropWhile_nows B.reverse (fun c hc => h c (List.mem_reverse.mp hc)),
    List.reverse_reverse]

theorem splitOnGo_nosep (B : List Char) :
    ∀ (acc : PyStr) (fuel : Nat), B.length ≤ fuel →
      (∀ c ∈ B, (c == ' ') = false) →
      splitOnGo ' ' [] fuel acc B = [acc.reverse ++ B] := by
  induction B with
  | nil =>
    intro acc fuel _ _
    cases fuel <;> simp [splitOnGo]
  | cons b B ih =>
    intro acc fuel hf hB
    cases fuel with
    | zero => simp at hf
    | succ f =>
      rw [splitOnGo]
      rw [if_neg (by simp [hB b (by simp)])]
      rw [ih (b :: acc) f (by simp at hf; omega) (fun c hc => hB c (by simp [hc]))]
      simp [List.reverse_cons, List.append_assoc]

theorem splitOnGo_sep (B : List Char) (hB : ∀ c ∈ B, (c == ' ') = false) :
    ∀ (A : List Char) (acc : PyStr) (fuel : Nat),
      (A ++ ' ' :: B).length ≤ fuel →
      (∀ c ∈ A, (c == ' ') = false) →
      splitOnGo ' ' [] fuel acc (A ++ ' ' :: B) = [acc.reverse ++ A, B] := by
  intro A
  induction A with
  | nil =>
    intro acc fuel hf _
    simp only [List.length_append, List.length_cons, List.length_nil,
      List.nil_append] at hf ⊢
    cases fuel with
    | zero => omega
    | succ f =>
      rw [splitOnGo]
      rw [if_pos (by rfl)]
      rw [show B.drop ([] : PyStr).length = B from by simp]
      rw [splitOnGo_nosep B [] f (by omega) hB]
      simp
  | cons a A ih =>
    intro acc fuel hf hA
    cases fuel with
    | zero => simp at hf
    | succ f =>
      simp only [List.cons_append]
      rw [splitOnGo]
      rw [if_neg (by simp [hA a (by simp)])]
      have hf' : (A ++ ' ' :: B).length ≤ f := by
        simp only [List.cons_append, List.length_cons] at hf
        omega
      rw [ih (a :: acc) f hf' (fun c hc => hA c (by simp [hc]))]
      simp [List.reverse_cons, List.append_assoc]

theorem containsSub_append_start (pat s : PyStr)
    (hstart : startsWithChars pat s = true) :
    ∀ pre : PyStr, containsSub pat (pre ++ s) = true := by
  intro pre
  induction pre with
  | nil =>
    cases s with
    | nil => simpa [containsSub] using hstart
    | cons c rest => simp [containsSub, hstart]
  | cons p pre ih => simp [containsSub, ih]

theorem chooseSep_default_space (T : PyStr)
    (hnl : ∀ c ∈ T, (('\n' : Char) == c) = false)
    (hsp : containsSub [' '] T = true) :
    chooseSep T defaultSeparators = ([' '], [[]]) := by
  unfold chooseSep defaultSeparators
  simp only [chooseSepGo, List.getLastD]
  rw [containsSub_head_false '\n' ['\n'] T hnl, containsSub_head_false '\n' [] T hnl]
  simp [chooseSepGo, hsp]

theorem splitKeep_space (A B : List Char) (hA : ∀ c ∈ A, (c == ' ') = false)
    (hB : ∀ c ∈ B, (c == ' ') = false) (hAne : A ≠ []) :
    splitKeep [' '] (A ++ ' ' :: B) = [A, ' ' :: B] := by
  unfold splitKeep
  dsimp only
  rw [splitOnGo_sep B hB A [] (A ++ ' ' :: B).length le_rfl hA]
  simp [hAne, List.isEmpty_iff]

theorem mergeSplits_two (A sB : PyStr)
    (h1 : (A.length : Int) ≤ 1000)
    (h2 : (A.length : Int) + (sB.length : Int) > 1000)
    (h3 : (A.length : Int) > 150) :
    mergeSplits 1000 150 [] [A, sB] =
      (joinDocs [] [A]).toList ++ (joinDocs [] [sB]).toList := by
  unfold mergeSplits
  rw [mergeGo]
  simp only [List.isEmpty_nil, if_true, List.nil_append, List.length_singleton,
    Nat.cast_one, ite_self, add_zero, zero_add, List.length_nil, Nat.cast_zero]
  rw [mergeGo]
  simp only [List.isEmpty_cons, Nat.cast_zero, ite_self, add_zero, zero_add]
  rw [if_pos h2]
  have hpop : popLoop 1000 150 0 ((sB.length : Nat) : Int) [A] ((A.length : Nat) : Int)
      = ([], 0) := by
    rw [popLoop]
    rw [if_pos (Or.inl h3)]
    rw [popLoop]
    simp [List.isEmpty_nil]
  rw [hpop]
  simp only [List.nil_append, zero_add]
  rw [mergeGo]

theorem joinDocs_single (l : PyStr) :
    joinDocs [] [l] = if (pyStrip l).isEmpty then none else some (pyStrip l) := by
  unfold joinDocs
  rw [show List.intercalate ([] : PyStr) [l] = l from by simp [List.intercalate]]

/-- C8 counterexample: the 1997-character text `a…a␣b…b` (998 `a`s, one
space, 998 `b`s) is split at the space into the two chunks `a…a` and
`b…b`, which share no overlap at all — the last 150 characters of the
first chunk are `a`s while the first 150 characters of the second are
`b`s — even though the text is longer than the chunk size. -/
theorem C8_counterexample :
    1000 ≤ (List.replicate 998 'a' ++ ' ' :: List.replicate 998 'b').length ∧
    split_text (List.replicate 998 'a' ++ ' ' :: List.replicate 998 'b') =
      [List.replicate 998 'a', List.replicate 998 'b'] ∧
    lastN 150 (List.replicate 998 'a') ≠ (List.replicate 998 'b').take 150 := by
  have hA : ∀ c ∈ List.replicate 998 'a', (c == ' ') = false := fun c hc => by
    rw [(List.mem_replicate.mp hc).2]
    decide
  have hB : ∀ c ∈ List.replicate 998 'b', (c == ' ') = false := fun c hc => by
    rw [(List.mem_replicate.mp hc).2]
    decide
  have hwsA : ∀ c ∈ List.replicate 998 'a', pyIsSpace c = false := fun c hc => by
    rw [(List.mem_replicate.mp hc).2]
    decide
  have hwsB : ∀ c ∈ List.replicate 998 'b', pyIsSpace c = false := fun c hc => by
    rw [(List.mem_replicate.mp hc).2]
    decide
  refine ⟨by norm_num [List.length_append, List.length_cons, List.length_replicate],
    ?_, ?_⟩
  · have hnl : ∀ c ∈ List.replicate 998 'a' ++ ' ' :: List.replicate 998 'b',
        (('\n' : Char) == c) = false := by
      intro c hc
      rcases List.mem_append.mp hc with h | h
      · rw [(List.mem_replicate.mp h).2]
        decide
      · rcases List.mem_cons.mp h with rfl | h
        · decide
        · rw [(List.mem_replicate.mp h).2]
          decide
    have hsp : containsSub [' ']
        (List.replicate 998 'a' ++ ' ' :: List.replicate 998 'b') = true :=
      containsSub_append_start [' '] (' ' :: List.replicate 998 'b') (by rfl)
        (List.replicate 998 'a')
    rw [show split_text (List.replicate 998 'a' ++ ' ' :: List.replicate 998 'b') =
      splitTextBody 1000 150 (some (splitTextFuel 1000 150 3)) defaultSeparators
        (List.replicate 998 'a' ++ ' ' :: List.replicate 998 'b') from rfl]
    unfold splitTextBody
    rw [chooseSep_default_space _ hnl hsp]
    dsimp only
    rw [splitKeep_space _ _ hA hB
      (List.ne_nil_of_length_pos (by rw [List.length_replicate]; norm_num))]
    simp only [List.map_cons, List.map_nil]
    rw [if_pos (by rw [List.length_replicate]; norm_num)]
    rw [if_pos (by norm_num [List.length_cons, List.length_replicate])]
    rw [show ([Sum.inl (List.replicate 998 'a'),
        Sum.inl (' ' :: List.replicate 998 'b')] : List (PyStr ⊕ List PyStr)) =
      ([List.replicate 998 'a', ' ' :: List.replicate 998 'b'] : List PyStr).map Sum.inl
      from rfl]
    rw [regroup_inl, List.nil_append]
    rw [mergeSplits_two _ _ (by rw [List.length_replicate]; norm_num)
      (by norm_num [List.length_cons, List.length_replicate])
      (by rw [List.length_replicate]; norm_num)]
    rw [joinDocs_single (List.replicate 998 'a'),
      joinDocs_single (' ' :: List.replicate 998 'b')]
    rw [pyStrip_eq_self _ hwsA, pyStrip_space_cons _ hwsB]
    rw [if_neg (by
      simp only [List.isEmpty_iff]
      exact List.ne_nil_of_length_pos (by rw [List.length_replicate]; norm_num))]
    rw [if_neg (by
      simp only [List.isEmpty_iff]
      exact List.ne_nil_of_length_pos (by rw [List.length_replicate]; norm_num))]
    rfl
  · rw [show lastN 150 (List.replicate 998 'a') = List.replicate 150 'a' from by
      unfold lastN
      rw [List.length_replicate, List.drop_replicate]]
    rw [List.take_replicate, show (150 ⊓ 998 : Nat) = 150 from by omega]
    decide
